import Mathlib

/-!
Shallow embedding of the gamebook engine (source files lonewolf2.go and
main.go): the story-graph data model, the combat result table, the
combat resolver, and the node traversal handlers, together with
theorems checking the specification's claims about them.

Randomness and interactive input are modelled explicitly: every random
draw is a parameter (or an element of a stream of rolls), and the
interactive input stream is a list of parsed lines, where a list
element `none` stands for a line that strconv.Atoi rejects.
-/

namespace Gamebook

/-- Key of the combat result table (Go struct `KeyPair`): a random
roll and a normalized combat differential. The second field is named
`ComRatio` in the source. -/
structure KeyPair where
  RandNum : Int
  ComRat : Int
  deriving DecidableEq

/-- Value of the combat result table (Go struct `DamagePair`). -/
structure DamagePair where
  EnemyLoss : Int
  PlayerLoss : Int
  IsKilled : Bool
  deriving DecidableEq

/-- A story choice (Go struct `Choice` in lonewolf2.go). -/
structure Choice where
  Description : String
  NextNodeID : String
  RequiredDiscipline : Option String
  RequiredItem : Option String
  deriving DecidableEq

/-- An enemy of an encounter (Go struct `Enemy` in lonewolf2.go). -/
structure Enemy where
  Name : String
  HP : Int
  CS : Int
  deriving DecidableEq

/-- An encounter or random-roll outcome (Go struct `Outcome` in
lonewolf2.go). -/
structure Outcome where
  Description : String
  Condition : String
  ConditionInt : List Int
  NextNodeID : String
  deriving DecidableEq

/-- A story node (Go struct `Node` in lonewolf2.go; the Go field
`Type` is `NType` here because `Type` is a Lean keyword). -/
structure Node where
  ID : String
  NType : String
  Text : String
  Choices : List Choice
  Enemies : List Enemy
  Outcomes : List Outcome
  deriving DecidableEq

/-- Player state (Go struct `Player` in lonewolf2.go). The Go map
`KaiDisciplines map[string]bool` is a Boolean-valued function (a Go
map read of an absent key yields false, which a total function models
directly). -/
structure Player where
  HP : Int
  CS : Int
  GOLD : Int
  MEAL : Int
  KaiDisciplines : String → Bool
  Weapon : List String
  Armor : List String
  Items : List String

/-- The combat result table, Go `map[KeyPair]DamagePair` in
`LoneWolfSystem`: a partial map from keys to damage pairs. -/
abbrev CRT := KeyPair → Option DamagePair

/-- Building the CRT map from the decoded `results` list, as the Go
`Initialize` does with `lw.CRT[result.KeyPair] = result.DamagePair`:
a later entry with the same key overwrites an earlier one. -/
def buildCRT : List (KeyPair × DamagePair) → CRT
  | [] => fun _ => none
  | (k, d) :: rest => fun key =>
    match buildCRT rest key with
    | some d2 => some d2
    | none => if key = k then some d else none

/-- Go helper `contains_str`. -/
def contains_str (slice : List String) (str : String) : Bool :=
  match slice with
  | [] => false
  | s :: rest => if s = str then true else contains_str rest str

/-- Go helper `contains_int`. -/
def contains_int (slice : List Int) (number : Int) : Bool :=
  match slice with
  | [] => false
  | i :: rest => if i = number then true else contains_int rest number

/-- Go function `normalizeCombatRatio` (shortened name): clamps the
combat differential to the closed interval [-11, 11]. -/
def normalizeCombatRat (r : Int) : Int :=
  if r ≤ -11 then -11
  else if r ≥ 11 then 11
  else r

/-- Go method `makeCombatResult`: looks up the pair (roll, normalized
differential) in the CRT; a miss yields the zero outcome. The random
draw `lw.Rand.Intn(10)` is the explicit parameter `roll`. -/
def makeCombatResult (crt : CRT) (playerCS enemyCS roll : Int) : DamagePair :=
  match crt ⟨roll, normalizeCombatRat (playerCS - enemyCS)⟩ with
  | none => ⟨0, 0, false⟩
  | some result => result

/-- Claim C4: for every integer r, normalizeCombatRat r lies in
[-11, 11]; values ≤ -11 collapse to -11, values ≥ 11 collapse to 11,
and values strictly between pass through unchanged. -/
theorem normalizeCombatRat_clamps (r : Int) :
    (-11 ≤ normalizeCombatRat r ∧ normalizeCombatRat r ≤ 11) ∧
    (r ≤ -11 → normalizeCombatRat r = -11) ∧
    (11 ≤ r → normalizeCombatRat r = 11) ∧
    (-11 < r → r < 11 → normalizeCombatRat r = r) := by
  unfold normalizeCombatRat
  split_ifs <;> omega

theorem normalizeCombatRat_clamps_witness :
    normalizeCombatRat (-20) = -11 ∧ normalizeCombatRat 20 = 11 ∧
      normalizeCombatRat 5 = 5 :=
  ⟨(normalizeCombatRat_clamps (-20)).2.1 (by decide),
   (normalizeCombatRat_clamps 20).2.2.1 (by decide),
   (normalizeCombatRat_clamps 5).2.2.2 (by decide) (by decide)⟩

/-- Claim C3: when the key is absent from the CRT the resolver
returns exactly the zero outcome (and is total, hence never fatal);
when the key is present it returns exactly the stored pair. -/
theorem makeCombatResult_lookup (crt : CRT) (playerCS enemyCS roll : Int) :
    (crt ⟨roll, normalizeCombatRat (playerCS - enemyCS)⟩ = none →
      makeCombatResult crt playerCS enemyCS roll = ⟨0, 0, false⟩) ∧
    (∀ d, crt ⟨roll, normalizeCombatRat (playerCS - enemyCS)⟩ = some d →
      makeCombatResult crt playerCS enemyCS roll = d) := by
  constructor
  · intro h
    unfold makeCombatResult
    rw [h]
  · intro d h
    unfold makeCombatResult
    rw [h]

/-- A concrete table with a single authored key, for evaluating the
resolver on both a hit and a miss. -/
def crtOneEntry : CRT := fun k => if k.RandNum = 0 then some ⟨3, 1, true⟩ else none

theorem makeCombatResult_lookup_witness :
    makeCombatResult crtOneEntry 5 5 1 = ⟨0, 0, false⟩ ∧
      makeCombatResult crtOneEntry 5 5 0 = ⟨3, 1, true⟩ :=
  ⟨(makeCombatResult_lookup crtOneEntry 5 5 1).1 (by decide),
   (makeCombatResult_lookup crtOneEntry 5 5 0).2 ⟨3, 1, true⟩ (by decide)⟩

/-- The selection loop of Go `handleStoryNode` (lonewolf2.go): each
iteration reads one parsed input line; a parse error, an out-of-range
number, or a choice whose requirement the player fails only
re-displays status and re-enters the loop. The result is the id the
loop assigns to `gs.CurrentNodeID`; `none` means the input stream ran
out with the loop still prompting. -/
def storyLoop (p : Player) (node : Node) : List (Option Int) → Option String
  | [] => none
  | none :: rest => storyLoop p node rest
  | some n :: rest =>
    if n < 1 ∨ n > (node.Choices.length : Int) then storyLoop p node rest
    else
      match node.Choices.get? (n - 1).toNat with
      | none => storyLoop p node rest
      | some choice =>
        if choice.RequiredDiscipline.isNone && choice.RequiredItem.isNone then
          some choice.NextNodeID
        else if choice.RequiredDiscipline.isSome &&
            p.KaiDisciplines (choice.RequiredDiscipline.getD "") then
          some choice.NextNodeID
        else if choice.RequiredItem.isSome &&
            contains_str p.Items (choice.RequiredItem.getD "") then
          some choice.NextNodeID
        else storyLoop p node rest

/-- Go method `handleStoryNode` (lonewolf2.go): a node with zero
choices forces the game-over sentinel and the error
"no choices available" before any input is read; otherwise the
selection loop decides the next node id and no error is returned.
The result pairs the new `CurrentNodeID` with the returned error. -/
def handleStoryNode (p : Player) (node : Node) (inputs : List (Option Int)) :
    Option (String × Option String) :=
  if node.Choices.length = 0 then some ("game_over", some "no choices available")
  else (storyLoop p node inputs).map fun nid => (nid, none)

/-- Eligibility of a choice, read off the if/else chain of Go
`handleStoryNode`: a choice advances the machine iff it has no
requirement at all, or its required discipline is held, or its
required item is carried (the Go code defaults an absent requirement
string to ""). -/
def eligible (choice : Choice) (p : Player) : Bool :=
  (choice.RequiredDiscipline.isNone && choice.RequiredItem.isNone) ||
  (choice.RequiredDiscipline.isSome &&
    p.KaiDisciplines (choice.RequiredDiscipline.getD "")) ||
  (choice.RequiredItem.isSome && contains_str p.Items (choice.RequiredItem.getD ""))

/-- Claim C6: a story node with zero choices transitions to the
game-over sentinel with the "no choices available" error, for every
input stream — no input is consumed. -/
theorem storyNode_no_choices (p : Player) (node : Node) (inputs : List (Option Int))
    (h : node.Choices = []) :
    handleStoryNode p node inputs = some ("game_over", some "no choices available") := by
  unfold handleStoryNode
  rw [h]
  rfl

/-- A story node with an empty choice list. -/
def nodeNoChoices : Node := ⟨"n1", "story", "dead end", [], [], []⟩

/-- A player with no disciplines and no items. -/
def playerBare : Player := ⟨20, 15, 0, 0, fun _ => false, [], [], []⟩

theorem storyNode_no_choices_witness :
    handleStoryNode playerBare nodeNoChoices [some 1, none] =
      some ("game_over", some "no choices available") :=
  storyNode_no_choices playerBare nodeNoChoices [some 1, none] rfl

/-- Claim C7: a choice with neither a required discipline nor a
required item is eligible for every player state, and selecting its
(1-based) number advances the current node id to its NextNodeID. -/
theorem ungated_choice_always_advances (p : Player) (node : Node) (n : Int)
    (choice : Choice) (rest : List (Option Int))
    (hget : node.Choices.get? (n - 1).toNat = some choice)
    (h1 : 1 ≤ n) (h2 : n ≤ (node.Choices.length : Int))
    (hd : choice.RequiredDiscipline = none) (hi : choice.RequiredItem = none) :
    eligible choice p = true ∧
    handleStoryNode p node (some n :: rest) = some (choice.NextNodeID, none) := by
  constructor
  · simp [eligible, hd, hi]
  · have hlen : ¬ node.Choices.length = 0 := by omega
    unfold handleStoryNode
    rw [if_neg hlen]
    have hguard : ¬ (n < 1 ∨ n > (node.Choices.length : Int)) := by omega
    unfold storyLoop
    rw [if_neg hguard, hget]
    simp [hd, hi]

/-- A story node with a single ungated choice. -/
def nodeOneChoice : Node :=
  ⟨"n2", "story", "fork", [⟨"go on", "n3", none, none⟩], [], []⟩

theorem ungated_choice_always_advances_witness :
    eligible ⟨"go on", "n3", none, none⟩ playerBare = true ∧
    handleStoryNode playerBare nodeOneChoice [some 1] = some ("n3", none) :=
  ungated_choice_always_advances playerBare nodeOneChoice 1 ⟨"go on", "n3", none, none⟩
    [] rfl (by decide) (by decide) rfl rfl

/-- The selection loop of Go `handleRandomNode` (lonewolf2.go): the
roll has already been drawn; inputs are read until the player picks an
in-range outcome whose ConditionInt contains the roll, and the machine
transitions to that outcome's NextNodeID. -/
def randomLoop (node : Node) (roll : Int) : List (Option Int) → Option String
  | [] => none
  | none :: rest => randomLoop node roll rest
  | some n :: rest =>
    if n < 1 ∨ n > (node.Outcomes.length : Int) then randomLoop node roll rest
    else
      match node.Outcomes.get? (n - 1).toNat with
      | none => randomLoop node roll rest
      | some outcome =>
        if contains_int outcome.ConditionInt roll then some outcome.NextNodeID
        else randomLoop node roll rest

/-- Go method `handleRandomNode` (lonewolf2.go): draws one roll (the
explicit `roll` parameter, `lw.Rand.Intn(10)` in the source) and runs
the selection loop. The result is the new `CurrentNodeID`; `none`
means the input stream ran out with the loop still prompting. -/
def handleRandomNode (node : Node) (roll : Int) (inputs : List (Option Int)) :
    Option String :=
  randomLoop node roll inputs

/-- A random-roll node whose two outcomes both contain the roll 3. -/
def nodeTwoMatches : Node :=
  ⟨"r1", "random_roll", "fate", [], [],
    [⟨"low", "", [3], "A"⟩, ⟨"high", "", [3], "B"⟩]⟩

/-- Claim C2 counterexample: the first outcome's set contains the
drawn roll 3, yet when the player selects the second outcome — whose
set also contains 3 — the machine transitions to the second outcome's
node "B", not to the first outcome's node "A". -/
theorem randomNode_first_match_counterexample :
    nodeTwoMatches.Outcomes.get? 0 = some ⟨"low", "", [3], "A"⟩ ∧
    contains_int [3] 3 = true ∧
    handleRandomNode nodeTwoMatches 3 [some 2] = some "B" ∧
    ("B" : String) ≠ "A" := by
  refine ⟨rfl, rfl, rfl, by decide⟩

/-- Claim C2 amended: after the roll is drawn, the machine transitions
to the outcome the player selects, provided that outcome's integer set
contains the roll; the player's selection, not authored order, decides
which of several matching outcomes is taken. -/
theorem randomNode_selected_match_advances (node : Node) (roll n : Int)
    (outcome : Outcome) (rest : List (Option Int))
    (hget : node.Outcomes.get? (n - 1).toNat = some outcome)
    (h1 : 1 ≤ n) (h2 : n ≤ (node.Outcomes.length : Int))
    (hmem : contains_int outcome.ConditionInt roll = true) :
    handleRandomNode node roll (some n :: rest) = some outcome.NextNodeID := by
  have hguard : ¬ (n < 1 ∨ n > (node.Outcomes.length : Int)) := by omega
  unfold handleRandomNode randomLoop
  rw [if_neg hguard, hget]
  simp [hmem]

theorem randomNode_selected_match_advances_witness :
    handleRandomNode nodeTwoMatches 3 [some 2] = some "B" :=
  randomNode_selected_match_advances nodeTwoMatches 3 2 ⟨"high", "", [3], "B"⟩ []
    rfl (by decide) (by decide) rfl

/-- Result of the inner per-enemy combat loop: either the enemy's
hitpoints dropped to ≤ 0 (the loop breaks and combat proceeds) or the
player's did (the encounter transitions to game_over). Each carries
the player's hitpoints after the final step. -/
inductive FightRes where
  | enemyDown (playerHP : Int)
  | playerDown (playerHP : Int)
  deriving DecidableEq

/-- The inner `for {}` loop of Go `handleEncounterNode` (lonewolf2.go):
each iteration resolves one combat step, subtracts both losses, then
checks `enemy.HP <= 0` first and `gs.Player.HP <= 0` second. The Go
loop is unbounded; here each iteration consumes one roll from `rolls`,
and `none` means the roll stream ran out with the loop still running.
Alongside the result the unconsumed rolls are returned. -/
def fightOne (crt : CRT) (playerCS enemyCS : Int) :
    Int → Int → List Int → Option (FightRes × List Int)
  | _, _, [] => none
  | enemyHP, playerHP, roll :: rolls =>
    let result := makeCombatResult crt playerCS enemyCS roll
    let enemyHP2 := enemyHP - result.EnemyLoss
    let playerHP2 := playerHP - result.PlayerLoss
    if enemyHP2 ≤ 0 then some (.enemyDown playerHP2, rolls)
    else if playerHP2 ≤ 0 then some (.playerDown playerHP2, rolls)
    else fightOne crt playerCS enemyCS enemyHP2 playerHP2 rolls

/-- Result of the outer enemy loop: either the player was defeated
mid-list, or every enemy fell. `defeated` records the names of the
defeated enemies in the order the loop announced them. -/
inductive EncFight where
  | playerDefeated (playerHP : Int) (defeated : List String)
  | allDefeated (playerHP : Int) (defeated : List String) (rollsLeft : List Int)
  deriving DecidableEq

/-- The outer `for _, enemy := range node.Enemies` loop of Go
`handleEncounterNode`: enemies are fought one at a time in authored
order; player defeat aborts the remaining list. -/
def fightAll (crt : CRT) (playerCS : Int) :
    List Enemy → Int → List Int → List String → Option EncFight
  | [], playerHP, rolls, defeated => some (.allDefeated playerHP defeated rolls)
  | e :: es, playerHP, rolls, defeated =>
    match fightOne crt playerCS e.CS e.HP playerHP rolls with
    | none => none
    | some (.enemyDown playerHP2, rest) =>
      fightAll crt playerCS es playerHP2 rest (defeated ++ [e.Name])
    | some (.playerDown playerHP2, _) => some (.playerDefeated playerHP2 defeated)

/-- The observable result of an encounter: the new `CurrentNodeID`,
the returned error, the player's final hitpoints, and the names of the
defeated enemies in announcement order. -/
structure EncResult where
  nextNodeID : String
  err : Option String
  playerHP : Int
  defeated : List String
  deriving DecidableEq

/-- Go method `handleEncounterNode` (lonewolf2.go): fight all enemies;
on player defeat go to the game-over sentinel with the error
"player defeated"; otherwise scan the outcomes in authored order for
the first one whose condition is combat_won, and if none exists go to
the game-over sentinel with the error "no combat_won outcome found". -/
def handleEncounterNode (crt : CRT) (p : Player) (node : Node) (rolls : List Int) :
    Option EncResult :=
  match fightAll crt p.CS node.Enemies p.HP rolls [] with
  | none => none
  | some (.playerDefeated playerHP2 defeated) =>
    some ⟨"game_over", some "player defeated", playerHP2, defeated⟩
  | some (.allDefeated playerHP2 defeated _) =>
    match node.Outcomes.find? (fun o => o.Condition == "combat_won") with
    | some outcome => some ⟨outcome.NextNodeID, none, playerHP2, defeated⟩
    | none => some ⟨"game_over", some "no combat_won outcome found", playerHP2, defeated⟩

/-- A table on which every step deals 5 damage to each side. -/
def crtFive : CRT := fun _ => some ⟨5, 5, false⟩

/-- A player and an enemy that one such step brings exactly to 0. -/
def playerTie : Player := ⟨5, 10, 0, 0, fun _ => false, [], [], []⟩

/-- The enemy of the simultaneous-defeat scenario. -/
def enemyTie : Enemy := ⟨"bandit", 5, 10⟩

/-- The encounter node of the simultaneous-defeat scenario. -/
def nodeTie : Node :=
  ⟨"e1", "encounter", "ambush", [], [enemyTie], [⟨"", "combat_won", [], "victory"⟩]⟩

/-- Claim C1 counterexample: a single resolution step brings both the
enemy's and the player's hitpoints to 0, yet the encounter resolves as
an enemy defeat and transitions to the combat_won outcome "victory"
with no error — the session does not end in player defeat. -/
theorem encounter_tie_counterexample :
    enemyTie.HP - (makeCombatResult crtFive playerTie.CS enemyTie.CS 0).EnemyLoss ≤ 0 ∧
    playerTie.HP - (makeCombatResult crtFive playerTie.CS enemyTie.CS 0).PlayerLoss ≤ 0 ∧
    handleEncounterNode crtFive playerTie nodeTie [0] =
      some ⟨"victory", none, 0, ["bandit"]⟩ := by
  refine ⟨by decide, by decide, rfl⟩

/-- Claim C1 amended: in a combat resolution step the enemy-defeat
check comes first and takes precedence: whenever the step brings the
enemy's hitpoints to ≤ 0, the loop ends in enemy defeat — even if the
same step also brings the player's hitpoints to ≤ 0 — and the
encounter proceeds rather than ending the session. -/
theorem encounter_enemy_check_first (crt : CRT) (playerCS enemyCS : Int)
    (enemyHP playerHP roll : Int) (rolls : List Int)
    (h : enemyHP - (makeCombatResult crt playerCS enemyCS roll).EnemyLoss ≤ 0) :
    fightOne crt playerCS enemyCS enemyHP playerHP (roll :: rolls) =
      some (.enemyDown
        (playerHP - (makeCombatResult crt playerCS enemyCS roll).PlayerLoss), rolls) := by
  unfold fightOne
  simp [h]

theorem encounter_enemy_check_first_witness :
    fightOne crtFive 10 10 5 5 [0] = some (.enemyDown 0, []) :=
  encounter_enemy_check_first crtFive 10 10 5 5 0 [] (by decide)

/-- Helper: when the outer enemy loop ends with every enemy defeated,
the recorded defeat order is the accumulator followed by the enemies'
names in authored order. -/
theorem fightAll_allDefeated_names (crt : CRT) (playerCS : Int) :
    ∀ (enemies : List Enemy) (playerHP : Int) (rolls : List Int) (acc : List String)
      (hp2 : Int) (d : List String) (rest : List Int),
      fightAll crt playerCS enemies playerHP rolls acc =
        some (.allDefeated hp2 d rest) →
      d = acc ++ enemies.map Enemy.Name := by
  intro enemies
  induction enemies with
  | nil =>
    intro playerHP rolls acc hp2 d rest h
    unfold fightAll at h
    cases h
    simp
  | cons e es ih =>
    intro playerHP rolls acc hp2 d rest h
    unfold fightAll at h
    cases hfo : fightOne crt playerCS e.CS e.HP playerHP rolls with
    | none => rw [hfo] at h; cases h
    | some pr =>
      rw [hfo] at h
      obtain ⟨res, unused⟩ := pr
      cases res with
      | enemyDown playerHP2 =>
        have := ih playerHP2 unused (acc ++ [e.Name]) hp2 d rest h
        simpa using this
      | playerDown playerHP2 => cases h

/-- Claim C5: the encounter fights the node's enemies one at a time in
authored order (the defeat log is exactly the enemies' names in that
order); once all are defeated it transitions to the first outcome
whose condition is combat_won, and when no such outcome exists it
transitions to the game-over sentinel with a structural error. -/
theorem encounter_order_and_combat_won (crt : CRT) (p : Player) (node : Node)
    (rolls : List Int) (hp2 : Int) (d : List String) (rest : List Int)
    (h : fightAll crt p.CS node.Enemies p.HP rolls [] =
      some (.allDefeated hp2 d rest)) :
    d = node.Enemies.map Enemy.Name ∧
    (∀ outcome, node.Outcomes.find? (fun o => o.Condition == "combat_won") =
        some outcome →
      handleEncounterNode crt p node rolls =
        some ⟨outcome.NextNodeID, none, hp2, d⟩) ∧
    (node.Outcomes.find? (fun o => o.Condition == "combat_won") = none →
      handleEncounterNode crt p node rolls =
        some ⟨"game_over", some "no combat_won outcome found", hp2, d⟩) := by
  refine ⟨?_, ?_, ?_⟩
  · have := fightAll_allDefeated_names crt p.CS node.Enemies p.HP rolls [] hp2 d rest h
    simpa using this
  · intro outcome hfind
    unfold handleEncounterNode
    rw [h]
    simp [hfind]
  · intro hfind
    unfold handleEncounterNode
    rw [h]
    simp [hfind]

/-- A table on which every step deals 9 damage to the enemy and none
to the player: combat always favors the player. -/
def crtFavor : CRT := fun _ => some ⟨9, 0, false⟩

/-- An encounter node with two enemies and a combat_won outcome. -/
def nodeTwoEnemies : Node :=
  ⟨"e2", "encounter", "pair", [], [⟨"goblin", 5, 8⟩, ⟨"orc", 7, 9⟩],
    [⟨"", "combat_won", [], "after_fight"⟩]⟩

theorem encounter_order_and_combat_won_witness :
    (["goblin", "orc"] : List String) = nodeTwoEnemies.Enemies.map Enemy.Name ∧
    handleEncounterNode crtFavor playerBare nodeTwoEnemies [0, 1] =
      some ⟨"after_fight", none, 20, ["goblin", "orc"]⟩ :=
  ⟨(encounter_order_and_combat_won crtFavor playerBare nodeTwoEnemies [0, 1] 20
      ["goblin", "orc"] [] (by decide)).1,
   (encounter_order_and_combat_won crtFavor playerBare nodeTwoEnemies [0, 1] 20
      ["goblin", "orc"] [] (by decide)).2.1 ⟨"", "combat_won", [], "after_fight"⟩
      (by decide)⟩

/-- A table on which every lookup misses, so every resolution step
deals zero damage to both sides. -/
def crtAllMiss : CRT := fun _ => none

/-- Claim C9: the per-enemy combat loop has no iteration bound. With a
CRT where every lookup misses, an enemy with positive hitpoints and a
player with positive hitpoints, no finite roll stream ever makes the
loop terminate: every finite unrolling is still running. -/
theorem encounter_loop_diverges (playerCS enemyCS : Int) (enemyHP playerHP : Int)
    (rolls : List Int) (he : 0 < enemyHP) (hp : 0 < playerHP) :
    fightOne crtAllMiss playerCS enemyCS enemyHP playerHP rolls = none := by
  induction rolls with
  | nil => rfl
  | cons roll rolls ih =>
    have hres : makeCombatResult crtAllMiss playerCS enemyCS roll = ⟨0, 0, false⟩ := rfl
    unfold fightOne
    rw [hres]
    simp only
    rw [if_neg (by omega : ¬ enemyHP - (0 : Int) ≤ 0),
      if_neg (by omega : ¬ playerHP - (0 : Int) ≤ 0)]
    simpa using ih

theorem encounter_loop_diverges_witness :
    (0 : Int) < 5 ∧ (0 : Int) < 20 ∧
      fightOne crtAllMiss 10 8 5 20 [0, 1, 2, 3] = none :=
  ⟨by decide, by decide,
    encounter_loop_diverges 10 8 5 20 [0, 1, 2, 3] (by decide) (by decide)⟩

/-- The part of a damage pair that combat ever reads back: the two
losses, without the IsKilled flag. -/
def lossesOf (d : DamagePair) : Int × Int := (d.EnemyLoss, d.PlayerLoss)

/-- Helper: two tables that agree entrywise on the losses produce
resolver outputs with equal losses. -/
theorem makeCombatResult_losses_congr (crt1 crt2 : CRT)
    (h : ∀ k, (crt1 k).map lossesOf = (crt2 k).map lossesOf)
    (playerCS enemyCS roll : Int) :
    lossesOf (makeCombatResult crt1 playerCS enemyCS roll) =
      lossesOf (makeCombatResult crt2 playerCS enemyCS roll) := by
  have hk := h ⟨roll, normalizeCombatRat (playerCS - enemyCS)⟩
  unfold makeCombatResult
  cases h1 : crt1 ⟨roll, normalizeCombatRat (playerCS - enemyCS)⟩ with
  | none =>
    cases h2 : crt2 ⟨roll, normalizeCombatRat (playerCS - enemyCS)⟩ with
    | none => rfl
    | some d2 => rw [h1, h2] at hk; cases hk
  | some d1 =>
    cases h2 : crt2 ⟨roll, normalizeCombatRat (playerCS - enemyCS)⟩ with
    | none => rw [h1, h2] at hk; cases hk
    | some d2 =>
      rw [h1, h2] at hk
      simpa using hk

/-- Helper: two tables that agree entrywise on the losses drive the
per-enemy loop to the same result. -/
theorem fightOne_congr (crt1 crt2 : CRT)
    (h : ∀ k, (crt1 k).map lossesOf = (crt2 k).map lossesOf)
    (playerCS enemyCS : Int) :
    ∀ (rolls : List Int) (enemyHP playerHP : Int),
      fightOne crt1 playerCS enemyCS enemyHP playerHP rolls =
        fightOne crt2 playerCS enemyCS enemyHP playerHP rolls := by
  intro rolls
  induction rolls with
  | nil => intro _ _; rfl
  | cons roll rolls ih =>
    intro enemyHP playerHP
    have hl := makeCombatResult_losses_congr crt1 crt2 h playerCS enemyCS roll
    have hel : (makeCombatResult crt1 playerCS enemyCS roll).EnemyLoss =
        (makeCombatResult crt2 playerCS enemyCS roll).EnemyLoss :=
      congrArg Prod.fst hl
    have hpl : (makeCombatResult crt1 playerCS enemyCS roll).PlayerLoss =
        (makeCombatResult crt2 playerCS enemyCS roll).PlayerLoss :=
      congrArg Prod.snd hl
    show (let result := makeCombatResult crt1 playerCS enemyCS roll
      let enemyHP2 := enemyHP - result.EnemyLoss
      let playerHP2 := playerHP - result.PlayerLoss
      if enemyHP2 ≤ 0 then some (.enemyDown playerHP2, rolls)
      else if playerHP2 ≤ 0 then some (.playerDown playerHP2, rolls)
      else fightOne crt1 playerCS enemyCS enemyHP2 playerHP2 rolls) =
        (let result := makeCombatResult crt2 playerCS enemyCS roll
        let enemyHP2 := enemyHP - result.EnemyLoss
        let playerHP2 := playerHP - result.PlayerLoss
        if enemyHP2 ≤ 0 then some (.enemyDown playerHP2, rolls)
        else if playerHP2 ≤ 0 then some (.playerDown playerHP2, rolls)
        else fightOne crt2 playerCS enemyCS enemyHP2 playerHP2 rolls)
    simp only [hel, hpl]
    split
    · rfl
    · split
      · rfl
      · exact ih (enemyHP - (makeCombatResult crt2 playerCS enemyCS roll).EnemyLoss)
          (playerHP - (makeCombatResult crt2 playerCS enemyCS roll).PlayerLoss)

/-- Helper: two tables that agree entrywise on the losses drive the
outer enemy loop to the same result. -/
theorem fightAll_congr (crt1 crt2 : CRT)
    (h : ∀ k, (crt1 k).map lossesOf = (crt2 k).map lossesOf) (playerCS : Int) :
    ∀ (enemies : List Enemy) (playerHP : Int) (rolls : List Int) (acc : List String),
      fightAll crt1 playerCS enemies playerHP rolls acc =
        fightAll crt2 playerCS enemies playerHP rolls acc := by
  intro enemies
  induction enemies with
  | nil => intro _ _ _; rfl
  | cons e es ih =>
    intro playerHP rolls acc
    unfold fightAll
    rw [fightOne_congr crt1 crt2 h playerCS e.CS rolls e.HP playerHP]
    cases fightOne crt2 playerCS e.CS e.HP playerHP rolls with
    | none => rfl
    | some pr =>
      obtain ⟨res, unused⟩ := pr
      cases res with
      | enemyDown playerHP2 => exact ih playerHP2 unused (acc ++ [e.Name])
      | playerDown playerHP2 => rfl

/-- Claim C10: the IsKilled field never influences behaviour. For any
two tables that differ only in the IsKilled values of their entries,
every combat resolution produces the same losses and every encounter
produces the same result (same transition, same hitpoint changes). -/
theorem isKilled_never_influences (crt1 crt2 : CRT)
    (h : ∀ k, (crt1 k).map lossesOf = (crt2 k).map lossesOf) :
    (∀ playerCS enemyCS roll,
      lossesOf (makeCombatResult crt1 playerCS enemyCS roll) =
        lossesOf (makeCombatResult crt2 playerCS enemyCS roll)) ∧
    (∀ (p : Player) (node : Node) (rolls : List Int),
      handleEncounterNode crt1 p node rolls = handleEncounterNode crt2 p node rolls) := by
  constructor
  · intro playerCS enemyCS roll
    exact makeCombatResult_losses_congr crt1 crt2 h playerCS enemyCS roll
  · intro p node rolls
    unfold handleEncounterNode
    rw [fightAll_congr crt1 crt2 h p.CS node.Enemies p.HP rolls []]

/-- A table whose single constant entry has IsKilled false. -/
def crtKilledOff : CRT := fun _ => some ⟨2, 1, false⟩

/-- The same table with IsKilled true on every entry. -/
def crtKilledOn : CRT := fun _ => some ⟨2, 1, true⟩

theorem isKilled_never_influences_witness :
    lossesOf (makeCombatResult crtKilledOff 10 8 0) =
      lossesOf (makeCombatResult crtKilledOn 10 8 0) ∧
    handleEncounterNode crtKilledOff playerBare nodeTwoEnemies [0, 1, 2, 3, 4, 5] =
      handleEncounterNode crtKilledOn playerBare nodeTwoEnemies [0, 1, 2, 3, 4, 5] :=
  ⟨(isKilled_never_influences crtKilledOff crtKilledOn (fun _ => rfl)).1 10 8 0,
   (isKilled_never_influences crtKilledOff crtKilledOn (fun _ => rfl)).2 playerBare
     nodeTwoEnemies [0, 1, 2, 3, 4, 5]⟩

/-- The game state built by Go `NewGameState` in main.go: the current
node id and the id→node map (insertion order means a later node with
the same id overwrites an earlier one). -/
structure MainGameState where
  CurrentNodeID : String
  NodesMap : String → Option Node

/-- The `nodeMap` construction of Go `NewGameState`: forward iteration
with assignment, so the last node with a given id wins. -/
def buildNodeMap : List Node → String → Option Node
  | [], _ => none
  | node :: rest, nid =>
    match buildNodeMap rest nid with
    | some found => some found
    | none => if node.ID = nid then some node else none

/-- The configuration consumed by Go `NewGameState` in main.go. -/
structure GameConfig where
  Nodes : List Node

/-- Go `NewGameState` (main.go): builds the node map and starts at
`config.Nodes[0].ID` with no emptiness guard. The unguarded index is a
partial operation; `none` models the out-of-bounds panic raised on an
empty node list (no error value is returned on that path). -/
def NewGameState (config : GameConfig) : Option MainGameState :=
  match config.Nodes.get? 0 with
  | none => none
  | some first => some ⟨first.ID, buildNodeMap config.Nodes⟩

/-- Claim C8: for every configuration with a non-empty node list the
initial current node id is the first authored node's id, and on an
empty node list NewGameState hits the out-of-bounds index (modelled as
`none`) instead of returning an error. -/
theorem newGameState_first_node (config : GameConfig) :
    (∀ first rest, config.Nodes = first :: rest →
      (NewGameState config).map MainGameState.CurrentNodeID = some first.ID) ∧
    (config.Nodes = [] → NewGameState config = none) := by
  constructor
  · intro first rest h
    unfold NewGameState
    rw [h]
    rfl
  · intro h
    unfold NewGameState
    rw [h]
    rfl

/-- A minimal starting node. -/
def nodeStart : Node := ⟨"start", "story", "opening", [], [], []⟩

theorem newGameState_first_node_witness :
    (NewGameState ⟨[nodeStart]⟩).map MainGameState.CurrentNodeID = some "start" ∧
    NewGameState ⟨[]⟩ = none :=
  ⟨(newGameState_first_node ⟨[nodeStart]⟩).1 nodeStart [] rfl,
   (newGameState_first_node ⟨[]⟩).2 rfl⟩

end Gamebook
